import Mathlib

/-!
Verification development for the phone-shopping product-information service
(`pis-service`).  The definitions below are a shallow embedding of the
Python source:

* `app/routes/search.py`  — search pipeline: price aggregation over
  variants/offers, spec summary, scoring, budget filtering, sorting;
* `app/routes/compare.py` — comparison-matrix builder and the direct
  `/compare` route;
* `app/models/response.py` — response models with their rounding and
  spec-extraction validators;
* `app/utils.py`          — price-rounding helpers.

Python values occurring inside `specs` mappings are modelled by the
`SVal` type; Python truthiness by `truthy`; Python dicts by insertion
ordered association lists (Python dict keys are unique, so a loop of
dict assignments over `.items()` is entry-wise and is modelled with
`List.filterMap` where the source iterates one dict building another).
Machine floats in the source carry exact decimal data (prices, ratings),
modelled as `ℚ`.
-/

/-- A Python value as it occurs inside a product's `specs` mapping:
scalar string/int/bool, `None`, a list, or a nested dict (insertion
ordered association list). -/
inductive SVal where
  | str : String → SVal
  | num : Int → SVal
  | bool : Bool → SVal
  | null : SVal
  | list : List SVal → SVal
  | obj : List (String × SVal) → SVal
deriving Repr

/-- Python truthiness of an `SVal`: `None`, `0`, `""`, `[]`, `{}` and
`False` are falsy, everything else truthy. -/
def truthy : SVal → Bool
  | .str s => !(s = "")
  | .num n => !(n = 0)
  | .bool b => b
  | .null => false
  | .list l => !l.isEmpty
  | .obj f => !f.isEmpty

/-- First-match association-list lookup, modelling Python `d.get(k)` /
`k in d` on a dict (dict keys are unique, so first match is the match). -/
def lookupA (k : String) : List (String × α) → Option α
  | [] => none
  | (k', v) :: rest => if k' = k then some v else lookupA k rest

mutual

/-- Python `str()` of an `SVal` (scalars as printed by Python; containers
via `repr`-style rendering).  Used only to model the f-string
`f"{min}-{max}"` in the range-shaped spec case. -/
def pyStr : SVal → String
  | .str s => s
  | v => pyRepr v

/-- Python `repr()` of an `SVal`. -/
def pyRepr : SVal → String
  | .str s => "'" ++ s ++ "'"
  | .num n => toString n
  | .bool b => if b then "True" else "False"
  | .null => "None"
  | .list l => "[" ++ pyReprList l ++ "]"
  | .obj f => "\x7b" ++ pyReprFields f ++ "\x7d"

def pyReprList : List SVal → String
  | [] => ""
  | [v] => pyRepr v
  | v :: rest => pyRepr v ++ ", " ++ pyReprList rest

def pyReprFields : List (String × SVal) → String
  | [] => ""
  | [(k, v)] => "'" ++ k ++ "': " ++ pyRepr v
  | (k, v) :: rest => "'" ++ k ++ "': " ++ pyRepr v ++ ", " ++ pyReprFields rest

end

/-- The em-dash sentinel written by `build_comparison_matrix` for a
product lacking a spec key (`compare.py` line 212). -/
def emDash : SVal := .str "—"

/-- Scan of a spec dict's entries in insertion order for the first entry
whose value is truthy and whose key is not in the metadata set `meta`
(the inner `for k, v in value.items(): if v and k not in meta` loops of
`search.py`, `compare.py` and `response.py`). -/
def firstMeaningful (meta : List String) : List (String × SVal) → Option SVal
  | [] => none
  | (k, v) :: rest =>
      if truthy v && !(meta.contains k) then some v else firstMeaningful meta rest

/-- Extraction from a dict-shaped spec value, shared shape of
`search.py` lines 77-88, `compare.py` lines 198-208 and `response.py`
lines 82-94, parameterized by the metadata key set (which differs
between the call sites): key `value` wins (even when its value is
falsy), else a `min`/`max` pair renders as `"{min}-{max}"`, else the
first truthy non-metadata entry. -/
def objExtract (meta : List String) (fields : List (String × SVal)) : Option SVal :=
  match lookupA "value" fields with
  | some w => some w
  | none =>
      match lookupA "min" fields, lookupA "max" fields with
      | some lo, some hi => some (.str (pyStr lo ++ "-" ++ pyStr hi))
      | _, _ => firstMeaningful meta fields

/-- Per-value extraction of the search route's spec summary
(`search.py` lines 76-90): dict values via `objExtract` with metadata
set `["confidence", "sources"]`; non-dict values kept only when truthy;
`none` means the key is omitted from the summary. -/
def summaryEntry : SVal → Option SVal
  | .obj fields => objExtract ["confidence", "sources"] fields
  | v => if truthy v then some v else none

/-- The search route's `spec_summary` built from a product's raw specs
dict (`search.py` lines 72-90).  Keys whose value yields no extraction
are omitted. -/
def specSummaryFields (fields : List (String × SVal)) : List (String × SVal) :=
  fields.filterMap (fun kv => (summaryEntry kv.2).map (fun w => (kv.1, w)))

/-- Per `search.py` line 74: the summary is built only when
`product.get("specs")` is a dict; any other shape yields `{}`. -/
def specSummary : SVal → List (String × SVal)
  | .obj fields => specSummaryFields fields
  | _ => []

/-- Per-value extraction of `ProductResponse.extract_spec_values`
(`response.py` lines 75-97): dict values via `objExtract` with metadata
set `["confidence", "sources", "unit"]`; non-dict values kept as-is
(even when falsy). -/
def extractEntry : SVal → Option SVal
  | .obj fields => objExtract ["confidence", "sources", "unit"] fields
  | v => some v

/-- The validator `ProductResponse.extract_spec_values` over a specs dict
(`response.py` lines 75-97). -/
def extractSpecFields (fields : List (String × SVal)) : List (String × SVal) :=
  fields.filterMap (fun kv => (extractEntry kv.2).map (fun w => (kv.1, w)))

/-- One cell of the comparison matrix's `specs` sub-table
(`compare.py` lines 195-212): missing or falsy values give the em-dash
sentinel; truthy dicts are extracted with metadata set
`["confidence", "sources"]` (a truthy dict with no extractable entry
yields no cell at all); truthy non-dict values pass through. -/
def compareCell : Option SVal → Option SVal
  | none => some emDash
  | some v =>
      if truthy v then
        match v with
        | .obj fields => objExtract ["confidence", "sources"] fields
        | w => some w
      else some emDash

/-- Keys of an association list. -/
def keysOf (l : List (String × α)) : List String := l.map Prod.fst

/-- Whether `summaryEntry` extracts a value: the decidable
characterization of which keys survive the search spec summary. -/
def summaryExtractable (v : SVal) : Bool := (summaryEntry v).isSome

/-! ## Rounding (`response.py` validators, Python `round`)

Python's `round` rounds half to even.  The source applies it to floats;
the model works over exact rationals, so `pyRoundInt q` is the ideal
half-to-even rounding of `q` to an integer and `pyRoundN n q` the ideal
rounding of `q` to `n` decimal places. -/

/-- Python `round(x)`: nearest integer, halves to even.  (`Rat.floor`
is the floor of a rational — `Rat.floor_def'`.) -/
def pyRoundInt (q : ℚ) : ℤ :=
  if q - (Rat.floor q : ℚ) < 1/2 then Rat.floor q
  else if 1/2 < q - (Rat.floor q : ℚ) then Rat.floor q + 1
  else if Rat.floor q % 2 = 0 then Rat.floor q else Rat.floor q + 1

/-- Python `round(x, n)`: rounding to `n` decimal places, halves to even. -/
def pyRoundN (n : ℕ) (q : ℚ) : ℚ := (pyRoundInt (q * 10 ^ n) : ℚ) / 10 ^ n

/-- The validator `PriceRange.round_price` (`response.py` lines 9-13): request/response
price-range bounds are coerced with `int(round(float(v)))` — whole
integers, `None` becoming `0`. -/
def roundPriceField : Option ℚ → ℤ
  | none => 0
  | some v => pyRoundInt v

/-- The `PriceRange` response model applied to an aggregated
`(min, max)` pair (`response.py` lines 5-13 via `convert_price_range`,
lines 142-148): both bounds integer-rounded. -/
def validatePriceRange (pr : ℚ × ℚ) : ℤ × ℤ :=
  (pyRoundInt pr.1, pyRoundInt pr.2)

/-- The helper `round_price_range` from `app/utils.py` (lines 3-10): rounds a price
range to 2 decimal places.  This helper is defined in the repository but
never called from any route or model. -/
def roundPriceRangeUtil : Option (ℚ × ℚ) → Option (ℚ × ℚ)
  | none => none
  | some pr => some (pyRoundN 2 pr.1, pyRoundN 2 pr.2)

/-! ## Data model and search pipeline (`search.py`) -/

/-- A stored variant document: belongs to one product
(ids model Mongo `ObjectId`s as their string form). -/
structure Variant where
  id : String
  productId : String
deriving Repr, DecidableEq

/-- A stored offer document: belongs to one variant, carries condition
(`"new"` / `"refurbished"` / `"open-box"`), a price and a retailer. -/
structure Offer where
  variantId : String
  condition : String
  price : ℚ
  retailer : String
deriving Repr, DecidableEq

/-- A stored review document (only its product reference matters to the
modelled routes, via `count_documents`). -/
structure Review where
  productId : String
deriving Repr, DecidableEq

/-- A stored product document, with the fields read by the search and
compare routes.  `specs` is an arbitrary Python value (the routes
`isinstance`-check it); `priceRange` is the optional precomputed
`price_range` field; a missing `rating` / `popularity_rank` is `none`. -/
structure Product where
  id : String
  category : Option String
  brand : String
  modelName : String
  specs : SVal
  priceRange : Option (ℚ × ℚ)
  rating : Option ℚ
  popularityRank : Option Int
  defaultVariantId : Option String
deriving Repr

/-- The storage collaborator: the document collections read by the
routes, in their natural (stored) order. -/
structure DB where
  products : List Product
  variants : List Variant
  offers : List Offer
  reviews : List Review

/-- Python truthiness of the optional `budget_max` query parameter:
every `if budget_max:` in `search.py` is false for both `None` and
`0`. -/
def bTruthy : Option Int → Bool
  | none => false
  | some v => !(v = 0)

/-- The numeric value of `budget_max` (only ever used under `bTruthy`). -/
def bVal (b : Option Int) : ℚ := ((b.getD 0 : Int) : ℚ)

/-- Python truthiness of an optional numeric field
(`product.get("rating")`, `product.get("popularity_rank")`): `None` and
`0` are falsy. -/
def numTruthy [Zero α] [DecidableEq α] : Option α → Bool
  | none => false
  | some v => !(v = 0)

/-- The new-condition offers the search loop iterates for a product
(`search.py` lines 40-46): the first 10 variants of the product
(`to_list(10)`), and for each the first 10 of its `condition == "new"`
offers (`to_list(10)`), in stored order. -/
def qualifyingOffers (db : DB) (p : Product) : List Offer :=
  ((db.variants.filter (fun v => v.productId = p.id)).take 10).flatMap
    (fun v => (db.offers.filter
      (fun o => o.variantId = v.id && o.condition = "new")).take 10)

/-- One step of the running minimum of `search.py` lines 50-51
(`if price < price_range["min"]`), seeded with `float('inf')`
(modelled as `none`). -/
def minStep (acc : Option ℚ) (o : Offer) : Option ℚ :=
  match acc with
  | none => some o.price
  | some m => if o.price < m then some o.price else some m

/-- One step of the running maximum of `search.py` lines 52-53
(`if price > price_range["max"]`). -/
def maxStep (acc : ℚ) (o : Offer) : ℚ :=
  if acc < o.price then o.price else acc

/-- The running minimum of `search.py` lines 48-53 over the iterated
offers. -/
def offersMin (offers : List Offer) : Option ℚ := offers.foldl minStep none

/-- The running maximum of `search.py` lines 48-53, seeded with `0`. -/
def offersMax (offers : List Offer) : ℚ := offers.foldl maxStep 0

/-- Lines 54-56: `in_budget` becomes true when some iterated offer's
price is `<= budget_max` (only when `budget_max` is truthy). -/
def offersInBudget (b : Option Int) (offers : List Offer) : Bool :=
  offers.any (fun o => bTruthy b && decide (o.price ≤ bVal b))

/-- The `price_range` variable after the fallback step of `search.py`
lines 62-66: when no offer was seen and the product carries a
precomputed `price_range`, that range replaces the `(inf, 0)` state
(`none` in the first component still encodes `float('inf')`). -/
def priceState (db : DB) (p : Product) : Option ℚ × ℚ :=
  let offers := qualifyingOffers db p
  match offersMin offers, p.priceRange with
  | none, some fb => (some fb.1, fb.2)
  | pmin, _ => (pmin, offersMax offers)

/-- The `in_budget` flag after lines 62-66: recomputed from the fallback
minimum when the fallback fires and `budget_max` is truthy. -/
def inBudgetState (db : DB) (b : Option Int) (p : Product) : Bool :=
  let offers := qualifyingOffers db p
  match offersMin offers, p.priceRange with
  | none, some fb => bTruthy b && decide (fb.1 ≤ bVal b)
  | _, _ => offersInBudget b offers

/-- The `final_price_range` of `search.py` line 108: the aggregated (or
fallback-substituted) range when a finite minimum is known, else
`product.get("price_range", {"min": 0, "max": 0})`. -/
def finalPriceRange (db : DB) (p : Product) : ℚ × ℚ :=
  match priceState db p with
  | (some m, M) => (m, M)
  | (none, _) => p.priceRange.getD (0, 0)

/-- The score computed by `search.py` lines 92-106 from the optional
rating, the post-fallback minimum price, and the optional popularity
rank (all three additions are guarded by Python truthiness). -/
def rawScore (b : Option Int) (rating : Option ℚ) (pmin : Option ℚ)
    (rank : Option Int) : ℚ :=
  (if numTruthy rating then rating.getD 0 * 10 else 0)
  + (if bTruthy b ∧ pmin.isSome then
        max 0 ((bVal b - pmin.getD 0) / bVal b * 30) else 0)
  + (if numTruthy rank then max 0 ((100 : ℚ) - ((rank.getD 0 : Int) : ℚ)) else 0)

/-- A `SearchResultItem` (`response.py` lines 130-152) as emitted by the
search route: price range integer-rounded by the `PriceRange` model,
score rounded to one decimal place by the `round_score` validator. -/
structure SearchResultItem where
  productId : String
  category : Option String
  brand : String
  modelName : String
  priceRange : Option (ℤ × ℤ)
  rating : Option ℚ
  popularityRank : Option Int
  specs : List (String × SVal)
  score : ℚ
  inBudget : Option Bool
deriving Repr

/-- Lines 33-120 of `search.py` for one candidate product: price
aggregation, the two budget skips (lines 58-60 and 68-70), spec
summary, scoring, and item construction.  `none` means the candidate is
dropped by a `continue`. -/
def processProduct (db : DB) (b : Option Int) (p : Product) :
    Option SearchResultItem :=
  -- line 59: skip when budget set, nothing in budget, and a finite min exists
  if bTruthy b && !offersInBudget b (qualifyingOffers db p) &&
      (offersMin (qualifyingOffers db p)).isSome then
    none
  else
    -- line 69: skip when budget set and still not in budget
    if bTruthy b && !inBudgetState db b p then none
    else
      some
        { productId := p.id
          category := p.category
          brand := p.brand
          modelName := p.modelName
          priceRange := some (validatePriceRange (finalPriceRange db p))
          rating := p.rating
          popularityRank := p.popularityRank
          specs := specSummary p.specs
          score := pyRoundN 1 (rawScore b p.rating (priceState db p).1 p.popularityRank)
          inBudget := if bTruthy b then some (inBudgetState db b p) else none }

/-! ## Sorting (`search.py` lines 122-128)

Python's `list.sort` is a stable sort; with a key function it orders by
the key and keeps equal-keyed elements in their original relative
order, and `reverse=True` reverses the comparison while still keeping
equal elements in original order.  A stable sort by a total preorder is
unique, so the model uses insertion sort (which is stable) over a
boolean "may go before" relation. -/

/-- Insert `x` before the first element it may precede (`le x y`),
keeping everything else in place. -/
def pyInsert (le : α → α → Bool) (x : α) : List α → List α
  | [] => [x]
  | y :: ys => if le x y then x :: y :: ys else y :: pyInsert le x ys

/-- Stable insertion sort by the boolean relation `le`. -/
def pySort (le : α → α → Bool) : List α → List α
  | [] => []
  | x :: xs => pyInsert le x (pySort le xs)

/-- Sort key of `sort == "price"` (`search.py` line 124):
`x.price_range.min if x.price_range else 0`. -/
def priceKey (x : SearchResultItem) : ℤ :=
  match x.priceRange with
  | some pr => pr.1
  | none => 0

/-- Sort key of `sort == "popularity"` (`search.py` line 126):
`x.popularity_rank or 999` — a missing rank *and* a rank of `0` both
fall to the sentinel `999` by Python truthiness of `or`. -/
def popKey (x : SearchResultItem) : ℤ :=
  match x.popularityRank with
  | some r => if r = 0 then 999 else r
  | none => 999

/-- Per `search.py` lines 122-128: stable sort of the result list by the
selected criterion (`score` descending for the default `"rating"` sort,
`price_range.min` ascending for `"price"`, `popularity_rank or 999`
ascending for `"popularity"`). -/
def sortResults (sort : String) (results : List SearchResultItem) :
    List SearchResultItem :=
  if sort = "price" then
    pySort (fun a b => decide (priceKey a ≤ priceKey b)) results
  else if sort = "popularity" then
    pySort (fun a b => decide (popKey a ≤ popKey b)) results
  else
    pySort (fun a b => decide (b.score ≤ a.score)) results

/-- The search route over an already-fetched candidate list
(`search.py` lines 31-139): per-candidate processing with budget skips,
the selected stable sort, and truncation to `limit`. -/
def searchProducts (db : DB) (b : Option Int) (sort : String) (limit : ℕ)
    (candidates : List Product) : List SearchResultItem :=
  (sortResults sort (candidates.filterMap (processProduct db b))).take limit

/-! ## Comparison matrix (`compare.py`) -/

/-- A product dict as handed to `build_comparison_matrix`: the output of
`ProductResponse(**raw).dict()` (`compare.py` lines 134-137). -/
structure PDict where
  productId : String
  category : Option String
  brand : String
  modelName : String
  priceRange : Option (ℤ × ℤ)
  rating : Option ℚ
  popularityRank : Option Int
  defaultVariantId : Option String
  specs : List (String × SVal)
deriving Repr

/-- The `ProductResponse` conversion of a stored product
(`response.py` lines 22-97): id stringification, `PriceRange`
integer-rounding, and `extract_spec_values` over a dict-shaped `specs`
(a truthy non-dict `specs` would fail pydantic validation upstream and
never reach the matrix builder). -/
def toPDict (p : Product) : PDict :=
  { productId := p.id
    category := p.category
    brand := p.brand
    modelName := p.modelName
    priceRange := p.priceRange.map validatePriceRange
    rating := p.rating
    popularityRank := p.popularityRank
    defaultVariantId := p.defaultVariantId
    specs := match p.specs with
      | .obj fields => extractSpecFields fields
      | _ => [] }

/-- Python dict assignment `d[k] = v`: replace the existing entry for
`k` in place, else append. -/
def setKey (k : String) (v : α) : List (String × α) → List (String × α)
  | [] => [(k, v)]
  | (k', v') :: rest => if k' = k then (k, v) :: rest else (k', v') :: setKey k v rest

/-- The per-product write loop of `build_comparison_matrix` restricted
to one sub-table: each product assigns its cell under its id key. -/
def writeAll (cell : PDict → α) : List PDict → List (String × α) →
    List (String × α)
  | [], t => t
  | p :: rest, t => writeAll cell rest (setKey p.productId (cell p) t)

/-- The `basic_info` cell (`compare.py` lines 167-172). -/
structure BasicCell where
  brand : String
  model : String
  category : Option String
deriving Repr

def basicCell (p : PDict) : BasicCell :=
  { brand := p.brand, model := p.modelName, category := p.category }

/-- The `pricing` cell (`compare.py` lines 174-190): range bounds (the
builder dereferences `price_range.get(...)`, so a `None` range raises —
see `buildComparisonMatrix`), plus the cheapest current new-condition
offer of the default variant when one exists. -/
structure PricingCell where
  min : ℤ
  max : ℤ
  currency : String
  bestPrice : Option ℚ
  retailer : Option String
deriving Repr

/-- Modelling `find_one` with the condition filter and ascending price sort:
the first stored offer attaining the minimum price. -/
def bestNewOffer (db : DB) (vid : String) : Option Offer :=
  (db.offers.filter (fun o => o.variantId = vid && o.condition = "new")).foldl
    (fun acc o => match acc with
      | none => some o
      | some m => if o.price < m.price then some o else some m)
    none

def pricingCell (db : DB) (p : PDict) : PricingCell :=
  -- the `(0, 0)` default is unreachable: a `none` range raises before this
  let pr := p.priceRange.getD (0, 0)
  let best := match p.defaultVariantId with
    | some vid => if vid = "" then none else bestNewOffer db vid
    | none => none
  { min := pr.1, max := pr.2, currency := "USD"
    bestPrice := best.map (·.price)
    retailer := best.map (·.retailer) }

/-- The `specs` cell row (`compare.py` lines 192-212): one entry per union
key with an extractable value or sentinel; a truthy dict value with no
extractable entry contributes no entry for that key. -/
def specRow (allKeys : List String) (specs : List (String × SVal)) :
    List (String × SVal) :=
  allKeys.filterMap (fun k => (compareCell (lookupA k specs)).map (fun w => (k, w)))

/-- The `ratings` cell (`compare.py` lines 214-222).  `product.get("rating", 0)`
returns the stored value — which is `None`, not `0`, when the rating is
absent, because the pydantic dict always carries the key. -/
structure RatingsCell where
  average : Option ℚ
  popularityRank : Option Int
  reviewCount : ℕ
deriving Repr

def ratingsCell (db : DB) (p : PDict) : RatingsCell :=
  { average := p.rating
    popularityRank := p.popularityRank
    reviewCount := (db.reviews.filter (fun r => r.productId = p.productId)).length }

/-- The `availability` cell (`compare.py` lines 224-236): variant count,
total offer count over the product's variants (all conditions), and
`in_stock = offer_count > 0`. -/
structure AvailCell where
  variants : ℕ
  offers : ℕ
  inStock : Bool
deriving Repr

def availCell (db : DB) (p : PDict) : AvailCell :=
  let vs := db.variants.filter (fun v => v.productId = p.productId)
  let oc := (vs.map (fun v => (db.offers.filter
    (fun o => o.variantId = v.id)).length)).sum
  { variants := vs.length, offers := oc, inStock := decide (0 < oc) }

/-- The five aligned sub-tables (plus display labels) produced by
`build_comparison_matrix`. -/
structure CmpMatrix where
  basicInfo : List (String × BasicCell)
  pricing : List (String × PricingCell)
  specs : List (String × List (String × SVal))
  ratings : List (String × RatingsCell)
  availability : List (String × AvailCell)
  specLabels : List (String × String)
deriving Repr

/-- The constant `spec_labels` sub-table (`compare.py` lines 238-250). -/
def specLabelsTable : List (String × String) :=
  [("display", "Display"), ("storage", "Storage"), ("ram", "RAM"),
   ("chip", "Processor"), ("battery", "Battery"), ("camera", "Camera"),
   ("os", "Operating System"), ("connectivity", "Connectivity"),
   ("weight", "Weight"), ("dimensions", "Dimensions")]

/-- One step of the spec-key union accumulation: add the product's spec
keys not yet seen. -/
def unionStep (acc : List String) (p : PDict) : List String :=
  acc ++ ((keysOf p.specs).filter (fun k => !acc.contains k))

/-- Union of spec keys across the input products (`compare.py` lines
157-161).  The source accumulates a Python `set`, whose iteration order
is unspecified; the model keeps first-appearance order — every claim
below is order-independent. -/
def unionSpecKeys (products : List PDict) : List String :=
  products.foldl unionStep []

/-- Possible outcomes of `build_comparison_matrix`: the bare `{}`
returned for an empty input (line 146-147), the `AttributeError` raised
by `price_range.get(...)` when some product's `price_range` is `None`
(line 175-177 — pydantic's `.dict()` always carries the key, so
`product.get("price_range", {})` yields `None`, not `{}`), or the
matrix. -/
inductive BuildResult where
  | emptyDict
  | typeError
  | matrix (m : CmpMatrix)
deriving Repr

/-- The five sub-tables written by the per-product loop of
`build_comparison_matrix`; as the tables are independent, the loop is
modelled as one `writeAll` pass per table. -/
def mkMatrix (db : DB) (products : List PDict) : CmpMatrix :=
  { basicInfo := writeAll basicCell products []
    pricing := writeAll (pricingCell db) products []
    specs := writeAll (fun p => specRow (unionSpecKeys products) p.specs)
      products []
    ratings := writeAll (ratingsCell db) products []
    availability := writeAll (availCell db) products []
    specLabels := specLabelsTable }

/-- The builder `build_comparison_matrix` (`compare.py` lines 144-252). -/
def buildComparisonMatrix (db : DB) (products : List PDict) : BuildResult :=
  if products.isEmpty then .emptyDict
  else if products.any (fun p => p.priceRange.isNone) then .typeError
  else .matrix (mkMatrix db products)

/-- Error outcomes of the `/compare` route. -/
inductive CompareError where
  | invalidInput
  | internalError
deriving Repr, DecidableEq

/-- Response of the `/compare` route. -/
structure CompareResponse where
  products : List PDict
  comparison : BuildResult
deriving Repr

/-- The direct-comparison route `compare_products` (`compare.py` lines
119-142) over the already-split id list: more than 4 ids is rejected
with a 400 `InvalidInput` error before anything is fetched; otherwise
the products matching any requested id (stripped) are fetched in stored
order and the matrix is built from all of them. -/
def compareProducts (db : DB) (ids : List String) :
    Except CompareError CompareResponse :=
  if 4 < ids.length then .error .invalidInput
  else
    let wanted := ids.map (fun s => s.trim)
    let found := db.products.filter (fun p => wanted.contains p.id)
    if found.isEmpty then .ok { products := [], comparison := .emptyDict }
    else
      let resp := found.map toPDict
      match buildComparisonMatrix db resp with
      | .typeError => .error .internalError
      | m => .ok { products := resp, comparison := m }

/-! ## Claim-side definitions and concrete instances -/

/-- Concrete product for the C1 instance: no variants, no offers, no
precomputed price range. -/
def cp1 : Product :=
  { id := "p1", category := none, brand := "Acme", modelName := "A1"
    specs := .null, priceRange := none, rating := none
    popularityRank := none, defaultVariantId := none }

/-- Database holding only `cp1`, with no variants or offers at all. -/
def cdb1 : DB := { products := [cp1], variants := [], offers := [], reviews := [] }

/-- All new-condition offers across *all* of a product's variants, as
claim C4 quantifies — without the `to_list(10)` fetch caps the code
actually applies. -/
def allNewOffers (db : DB) (p : Product) : List Offer :=
  (db.variants.filter (fun v => v.productId = p.id)).flatMap
    (fun v => db.offers.filter
      (fun o => o.variantId = v.id && o.condition = "new"))

/-- Asserts `m` is the minimum price over the offers the code actually
iterates. -/
def isMinOfQualifying (db : DB) (p : Product) (m : ℚ) : Prop :=
  (∃ o ∈ qualifyingOffers db p, o.price = m) ∧
    ∀ o ∈ qualifyingOffers db p, m ≤ o.price

/-- Asserts `M` is the maximum price over the offers the code actually
iterates. -/
def isMaxOfQualifying (db : DB) (p : Product) (M : ℚ) : Prop :=
  (∃ o ∈ qualifyingOffers db p, o.price = M) ∧
    ∀ o ∈ qualifyingOffers db p, o.price ≤ M

/-- The `in_budget` condition as claim C4 states it, over the iterated
offers: some qualifying offer within budget, or — with no qualifying
offers — a fallback range whose minimum is within budget. -/
def claimedInBudgetC4 (db : DB) (p : Product) (b : Option Int) : Prop :=
  (∃ o ∈ qualifyingOffers db p, o.price ≤ bVal b) ∨
    (qualifyingOffers db p = [] ∧
      ∃ fb, p.priceRange = some fb ∧ fb.1 ≤ bVal b)

/-- Product for the C4 instance: one variant carrying eleven
new-condition offers, the cheapest stored last. -/
def cp4 : Product :=
  { id := "p4", category := none, brand := "Acme", modelName := "A4"
    specs := .null, priceRange := none, rating := none
    popularityRank := none, defaultVariantId := none }

def c4offer (q : ℚ) : Offer :=
  { variantId := "v4", condition := "new", price := q, retailer := "R" }

def cdb4 : DB :=
  { products := [cp4]
    variants := [{ id := "v4", productId := "p4" }]
    offers := List.replicate 10 (c4offer 200) ++ [c4offer 100]
    reviews := [] }

/-- The score formula exactly as claim C5 states it: `rating * 10` when
a rating is present, the budget-headroom term when `budget_max` is
supplied and a minimum price is known, `max(0, 100 - popularity_rank)`
when a popularity rank is present. -/
def claimedScoreC5 (b : Option Int) (rating : Option ℚ) (pmin : Option ℚ)
    (rank : Option Int) : ℚ :=
  (match rating with | some r => r * 10 | none => 0)
  + (match b, pmin with
     | some bv, some m => max 0 (((bv : ℚ) - m) / (bv : ℚ) * 30)
     | _, _ => 0)
  + (match rank with
     | some r => max 0 ((100 : ℚ) - (r : ℚ))
     | none => 0)

/-- The C5 formula amended no further than the counterexample forces:
the popularity term requires a *nonzero* present rank (Python
truthiness), contributing `0` when the rank is missing or `0`. -/
def claimedScoreC5Amended (b : Option Int) (rating : Option ℚ)
    (pmin : Option ℚ) (rank : Option Int) : ℚ :=
  (match rating with | some r => r * 10 | none => 0)
  + (match b, pmin with
     | some bv, some m => max 0 (((bv : ℚ) - m) / (bv : ℚ) * 30)
     | _, _ => 0)
  + (match rank with
     | some r => if r = 0 then 0 else max 0 ((100 : ℚ) - (r : ℚ))
     | none => 0)

/-- The popularity sort key exactly as claim C6 states it: the rank
when present, the sentinel `999` only for a *missing* rank. -/
def claimedPopKeyC6 (x : SearchResultItem) : ℤ := x.popularityRank.getD 999

/-- A minimal search-result item with a given popularity rank, for the
C6 instance. -/
def c6item (r : Option Int) : SearchResultItem :=
  { productId := "x", category := none, brand := "B", modelName := "M"
    priceRange := some (0, 0), rating := none, popularityRank := r
    specs := [], score := 0, inBudget := none }

/-- An empty database, for the C7 instances (the matrix claims are
about table structure, not stored counts). -/
def cdb7 : DB := { products := [], variants := [], offers := [], reviews := [] }

/-- A product dict whose `price_range` is `None`, as the builder
receives for any stored product lacking a price range. -/
def cpd7none : PDict :=
  { productId := "q0", category := none, brand := "B", modelName := "M"
    priceRange := none, rating := none, popularityRank := none
    defaultVariantId := none, specs := [] }

/-- Two product dicts with disjoint spec keys, for the C7 witness. -/
def cpd7a : PDict :=
  { productId := "qa", category := none, brand := "B", modelName := "MA"
    priceRange := some (1, 2), rating := none, popularityRank := none
    defaultVariantId := none, specs := [("ram", .num 8)] }

def cpd7b : PDict :=
  { productId := "qb", category := none, brand := "B", modelName := "MB"
    priceRange := some (3, 4), rating := none, popularityRank := none
    defaultVariantId := none, specs := [("storage", .num 256)] }

/-- The price `10.30` for the C9 instance, in reduced form. -/
def c9price : ℚ := ⟨103, 10, by decide, by norm_num⟩

/-- Product and database for the C9 instance: one variant with a single
new-condition offer priced `10.30`. -/
def cp9 : Product :=
  { id := "p9", category := none, brand := "Acme", modelName := "A9"
    specs := .null, priceRange := none, rating := none
    popularityRank := none, defaultVariantId := none }

def cdb9 : DB :=
  { products := [cp9]
    variants := [{ id := "v9", productId := "p9" }]
    offers := [{ variantId := "v9", condition := "new", price := c9price, retailer := "R" }]
    reviews := [] }

/-- The search-result item the route emits for `cp9` with no budget. -/
def c9item : SearchResultItem :=
  { productId := "p9", category := none, brand := "Acme", modelName := "A9"
    priceRange := some (10, 10), rating := none, popularityRank := none
    specs := [], score := 0, inBudget := none }

/-- Normalization exactly as claim C3 states it: a non-mapping value is
kept as-is; key `value` wins; else `min`+`max` render as
`"{min}-{max}"`; else the first truthy entry, in insertion order, whose
key is outside `{confidence, sources, unit}` (a key yielding no value
is omitted — the claim leaves that case to the C2 sentinel policy). -/
def claimedNormalizeC3 (fields : List (String × SVal)) : List (String × SVal) :=
  fields.filterMap (fun kv =>
    match kv.2 with
    | .obj f =>
        (match lookupA "value" f with
         | some w => some w
         | none =>
             match lookupA "min" f, lookupA "max" f with
             | some lo, some hi => some (.str (pyStr lo ++ "-" ++ pyStr hi))
             | _, _ =>
                 firstMeaningful ["confidence", "sources", "unit"] f).map
          (fun w => (kv.1, w))
    | v => some (kv.1, v))

/-- The claimed rules with the metadata set the *search route* actually
uses — `{confidence, sources}` only — and with Python truthiness on
non-mapping values (falsy scalars are dropped, not kept as-is). -/
def claimedSearchNormalizeC3 (fields : List (String × SVal)) :
    List (String × SVal) :=
  fields.filterMap (fun kv =>
    match kv.2 with
    | .obj f =>
        (match lookupA "value" f with
         | some w => some w
         | none =>
             match lookupA "min" f, lookupA "max" f with
             | some lo, some hi => some (.str (pyStr lo ++ "-" ++ pyStr hi))
             | _, _ => firstMeaningful ["confidence", "sources"] f).map
          (fun w => (kv.1, w))
    | v => if truthy v then some (kv.1, v) else none)

/-! ## Generic lemmas: stable insertion sort -/

theorem pyInsert_perm (le : α → α → Bool) (x : α) :
    ∀ l : List α, (pyInsert le x l).Perm (x :: l)
  | [] => List.Perm.refl _
  | y :: ys => by
      unfold pyInsert
      by_cases h : le x y = true
      · simp [h]
      · simp only [h, if_false]
        exact ((pyInsert_perm le x ys).cons y).trans (List.Perm.swap x y ys)

theorem pySort_perm (le : α → α → Bool) :
    ∀ l : List α, (pySort le l).Perm l
  | [] => List.Perm.refl _
  | x :: xs =>
      (pyInsert_perm le x (pySort le xs)).trans ((pySort_perm le xs).cons x)

theorem mem_pyInsert (le : α → α → Bool) (x z : α) (l : List α) :
    z ∈ pyInsert le x l ↔ z = x ∨ z ∈ l := by
  rw [(pyInsert_perm le x l).mem_iff, List.mem_cons]

theorem sorted_pyInsert (le : α → α → Bool)
    (htot : ∀ a b, le a b = true ∨ le b a = true)
    (htrans : ∀ a b c, le a b = true → le b c = true → le a c = true)
    (x : α) : ∀ l : List α, l.Pairwise (fun a b => le a b = true) →
      (pyInsert le x l).Pairwise (fun a b => le a b = true)
  | [], _ => by simp [pyInsert]
  | y :: ys, h => by
      rcases List.pairwise_cons.mp h with ⟨hy, hys⟩
      unfold pyInsert
      by_cases hxy : le x y = true
      · simp only [hxy, if_true]
        refine List.pairwise_cons.mpr ⟨?_, h⟩
        intro z hz
        rcases List.mem_cons.mp hz with rfl | hz
        · exact hxy
        · exact htrans x y z hxy (hy z hz)
      · simp only [hxy, if_false]
        refine List.pairwise_cons.mpr ⟨?_, sorted_pyInsert le htot htrans x ys hys⟩
        intro z hz
        rcases (mem_pyInsert le x z ys).mp hz with rfl | hz
        · exact (htot z y).resolve_left hxy
        · exact hy z hz

theorem sorted_pySort (le : α → α → Bool)
    (htot : ∀ a b, le a b = true ∨ le b a = true)
    (htrans : ∀ a b c, le a b = true → le b c = true → le a c = true) :
    ∀ l : List α, (pySort le l).Pairwise (fun a b => le a b = true)
  | [] => List.Pairwise.nil
  | x :: xs =>
      sorted_pyInsert le htot htrans x (pySort le xs)
        (sorted_pySort le htot htrans xs)

theorem filter_pyInsert (le : α → α → Bool) (p : α → Bool)
    (hp : ∀ a b, p a = true → p b = true → le a b = true) (x : α) :
    ∀ l : List α,
      (pyInsert le x l).filter p = if p x then x :: l.filter p else l.filter p
  | [] => by
      cases hx : p x <;> simp [pyInsert, List.filter, hx]
  | y :: ys => by
      unfold pyInsert
      by_cases hxy : le x y = true
      · cases hx : p x <;> simp [List.filter, hxy, hx]
      · simp only [hxy, if_false, List.filter]
        by_cases hpy : p y = true
        · have hpx : p x = false := by
            cases hx : p x
            · rfl
            · exact absurd (hp x y hx hpy) hxy
          simp [hpy, hpx, filter_pyInsert le p hp x ys]
        · simp only [Bool.not_eq_true] at hpy
          simp [hpy, filter_pyInsert le p hp x ys]

/-- Stability of the modelled Python sort: elements sharing any value of
the sort key keep their original relative order. -/
theorem filter_pySort (le : α → α → Bool) (p : α → Bool)
    (hp : ∀ a b, p a = true → p b = true → le a b = true) :
    ∀ l : List α, (pySort le l).filter p = l.filter p
  | [] => rfl
  | x :: xs => by
      rw [pySort, filter_pyInsert le p hp x (pySort le xs),
        filter_pySort le p hp xs]
      by_cases hx : p x = true
      · simp [List.filter, hx]
      · simp only [Bool.not_eq_true] at hx
        simp [List.filter, hx]

/-! ## Generic lemmas: the search pipeline -/

/-- A zero `budget_max` is falsy everywhere `search.py` consults it, so
one candidate is processed exactly as with no budget at all. -/
theorem processProduct_budget_zero (db : DB) (p : Product) :
    processProduct db (some 0) p = processProduct db none p := by
  have hin : inBudgetState db (some 0) p = inBudgetState db none p := by
    unfold inBudgetState
    cases offersMin (qualifyingOffers db p) <;> cases p.priceRange <;>
      simp [bTruthy, offersInBudget]
  unfold processProduct
  simp [bTruthy, hin, rawScore, offersInBudget]

/-! ## Generic lemmas: the running minimum / maximum folds -/

theorem foldl_minStep_some (l : List Offer) :
    ∀ (acc : Option ℚ) (m : ℚ), l.foldl minStep acc = some m →
      (∀ o ∈ l, m ≤ o.price) ∧ (∀ a, acc = some a → m ≤ a) ∧
        (acc = some m ∨ ∃ o ∈ l, o.price = m) := by
  induction l with
  | nil =>
      intro acc m h
      simp only [List.foldl_nil] at h
      refine ⟨by simp, fun a ha => ?_, Or.inl h⟩
      rw [h] at ha
      cases ha
      exact le_refl m
  | cons o l ih =>
      intro acc m h
      rw [List.foldl_cons] at h
      obtain ⟨h1, h2, h3⟩ := ih (minStep acc o) m h
      have hc : ∃ c, minStep acc o = some c ∧ c ≤ o.price ∧
          (∀ a, acc = some a → c ≤ a) ∧ (c = o.price ∨ acc = some c) := by
        cases acc with
        | none => exact ⟨o.price, rfl, le_refl _, by simp, Or.inl rfl⟩
        | some a =>
            by_cases hlt : o.price < a
            · refine ⟨o.price, by simp [minStep, hlt], le_refl _, ?_, Or.inl rfl⟩
              intro a' ha'
              cases ha'
              exact le_of_lt hlt
            · refine ⟨a, by simp [minStep, hlt], le_of_not_lt hlt, ?_, Or.inr rfl⟩
              intro a' ha'
              cases ha'
              exact le_refl _
      obtain ⟨c, hceq, hcle, hcacc, hcor⟩ := hc
      have hmc : m ≤ c := h2 c hceq
      refine ⟨?_, fun a ha => le_trans hmc (hcacc a ha), ?_⟩
      · intro o' ho'
        rcases List.mem_cons.mp ho' with rfl | ho'
        · exact le_trans hmc hcle
        · exact h1 o' ho'
      · rcases h3 with h3 | h3
        · rw [h3] at hceq
          cases hceq
          rcases hcor with rfl | hcor
          · exact Or.inr ⟨o, List.mem_cons_self _ _, rfl⟩
          · exact Or.inl hcor
        · obtain ⟨o', ho', he⟩ := h3
          exact Or.inr ⟨o', List.mem_cons_of_mem _ ho', he⟩

/-- The running minimum attains its value on some iterated offer and
bounds all of them from below. -/
theorem offersMin_spec (l : List Offer) (m : ℚ) (h : offersMin l = some m) :
    (∃ o ∈ l, o.price = m) ∧ ∀ o ∈ l, m ≤ o.price := by
  obtain ⟨h1, _, h3⟩ := foldl_minStep_some l none m h
  refine ⟨?_, h1⟩
  rcases h3 with h3 | h3
  · cases h3
  · exact h3

theorem foldl_minStep_ne_none (l : List Offer) :
    ∀ a : ℚ, l.foldl minStep (some a) ≠ none := by
  induction l with
  | nil => intro a h; cases h
  | cons o l ih =>
      intro a
      rw [List.foldl_cons]
      by_cases hlt : o.price < a
      · rw [show minStep (some a) o = some o.price by simp [minStep, hlt]]
        apply ih
      · rw [show minStep (some a) o = some a by simp [minStep, hlt]]
        apply ih

/-- The running minimum is `float('inf')` (`none`) exactly when no
offer was iterated. -/
theorem offersMin_eq_none (l : List Offer) : offersMin l = none ↔ l = [] := by
  cases l with
  | nil => simp [offersMin]
  | cons o l =>
      constructor
      · intro h
        exact absurd h (foldl_minStep_ne_none l o.price)
      · intro h
        cases h

theorem foldl_maxStep_le (l : List Offer) :
    ∀ acc : ℚ, (∀ o ∈ l, o.price ≤ l.foldl maxStep acc) ∧
      acc ≤ l.foldl maxStep acc ∧
      (l.foldl maxStep acc = acc ∨ ∃ o ∈ l, o.price = l.foldl maxStep acc) := by
  induction l with
  | nil => intro acc; simp
  | cons o l ih =>
      intro acc
      rw [List.foldl_cons]
      obtain ⟨h1, h2, h3⟩ := ih (maxStep acc o)
      have hco : o.price ≤ maxStep acc o ∧ acc ≤ maxStep acc o ∧
          (maxStep acc o = o.price ∨ maxStep acc o = acc) := by
        by_cases hlt : acc < o.price
        · rw [show maxStep acc o = o.price by simp [maxStep, hlt]]
          exact ⟨le_refl _, le_of_lt hlt, Or.inl rfl⟩
        · rw [show maxStep acc o = acc by simp [maxStep, hlt]]
          exact ⟨le_of_not_lt hlt, le_refl _, Or.inr rfl⟩
      refine ⟨?_, le_trans hco.2.1 h2, ?_⟩
      · intro o' ho'
        rcases List.mem_cons.mp ho' with rfl | ho'
        · exact le_trans hco.1 h2
        · exact h1 o' ho'
      · rcases h3 with h3 | h3
        · rcases hco.2.2 with hc | hc
          · exact Or.inr ⟨o, List.mem_cons_self _ _, by rw [h3, hc]⟩
          · exact Or.inl (by rw [h3, hc])
        · obtain ⟨o', ho', he⟩ := h3
          exact Or.inr ⟨o', List.mem_cons_of_mem _ ho', he⟩

/-- With nonnegative prices, the running maximum (seeded with `0`)
attains its value on some iterated offer and bounds all of them. -/
theorem offersMax_spec (l : List Offer) (hne : l ≠ [])
    (hpos : ∀ o ∈ l, 0 ≤ o.price) :
    (∃ o ∈ l, o.price = offersMax l) ∧ ∀ o ∈ l, o.price ≤ offersMax l := by
  obtain ⟨h1, _, h3⟩ := foldl_maxStep_le l 0
  refine ⟨?_, h1⟩
  rcases h3 with h3 | h3
  · cases l with
    | nil => exact absurd rfl hne
    | cons o l =>
        refine ⟨o, List.mem_cons_self _ _, ?_⟩
        have hub : o.price ≤ offersMax (o :: l) := h1 o (List.mem_cons_self _ _)
        have hlb : 0 ≤ o.price := hpos o (List.mem_cons_self _ _)
        rw [offersMax] at *
        rw [h3] at hub ⊢
        exact le_antisymm hub hlb
  · exact h3

/-- The `in_budget` flag becomes true on the offer loop exactly when some
iterated offer is within the (truthy) budget. -/
theorem offersInBudget_iff (b : Option Int) (l : List Offer)
    (hb : bTruthy b = true) :
    offersInBudget b l = true ↔ ∃ o ∈ l, o.price ≤ bVal b := by
  unfold offersInBudget
  rw [List.any_eq_true]
  constructor
  · rintro ⟨o, ho, h⟩
    rw [hb, Bool.true_and, decide_eq_true_eq] at h
    exact ⟨o, ho, h⟩
  · rintro ⟨o, ho, h⟩
    exact ⟨o, ho, by rw [hb, Bool.true_and, decide_eq_true_eq]; exact h⟩

/-! ## Generic lemmas: dict writes and the comparison matrix -/

theorem lookupA_setKey_self (k : String) (v : α) :
    ∀ l : List (String × α), lookupA k (setKey k v l) = some v
  | [] => by simp [setKey, lookupA]
  | (k', v') :: rest => by
      unfold setKey
      by_cases h : k' = k
      · simp [h, lookupA]
      · simp only [h, if_false]
        rw [lookupA, if_neg h]
        exact lookupA_setKey_self k v rest

theorem lookupA_setKey_ne (k k' : String) (h : k' ≠ k) (v : α) :
    ∀ l : List (String × α), lookupA k' (setKey k v l) = lookupA k' l
  | [] => by
      have h' : ¬(k = k') := fun hh => h hh.symm
      simp [setKey, lookupA, h']
  | (k₀, v₀) :: rest => by
      unfold setKey
      by_cases h0 : k₀ = k
      · subst h0
        rw [if_pos rfl, lookupA, lookupA, if_neg (fun hh => h hh.symm),
          if_neg (fun hh => h hh.symm)]
      · rw [if_neg h0, lookupA, lookupA]
        by_cases h1 : k₀ = k'
        · rw [if_pos h1, if_pos h1]
        · rw [if_neg h1, if_neg h1]
          exact lookupA_setKey_ne k k' h v rest

theorem lookupA_writeAll_not_mem (cell : PDict → α) :
    ∀ (ps : List PDict) (t : List (String × α)) (k : String),
      k ∉ ps.map PDict.productId →
        lookupA k (writeAll cell ps t) = lookupA k t
  | [], _, _, _ => rfl
  | p :: rest, t, k, hk => by
      rw [List.map_cons, List.mem_cons] at hk
      push_neg at hk
      rw [writeAll, lookupA_writeAll_not_mem cell rest _ k hk.2]
      exact lookupA_setKey_ne p.productId k hk.1 (cell p) t

theorem lookupA_writeAll_mem (cell : PDict → α) :
    ∀ (ps : List PDict) (t : List (String × α)) (p : PDict),
      p ∈ ps → (ps.map PDict.productId).Nodup →
        lookupA p.productId (writeAll cell ps t) = some (cell p)
  | [], _, p, hp, _ => absurd hp (List.not_mem_nil p)
  | q :: rest, t, p, hp, hnd => by
      rw [List.map_cons, List.nodup_cons] at hnd
      rw [writeAll]
      rcases List.mem_cons.mp hp with rfl | hp'
      · rw [lookupA_writeAll_not_mem cell rest _ _ hnd.1]
        exact lookupA_setKey_self p.productId (cell p) t
      · exact lookupA_writeAll_mem cell rest _ p hp' hnd.2

theorem mem_unionStep_left {k : String} {acc : List String} (p : PDict)
    (h : k ∈ acc) : k ∈ unionStep acc p :=
  List.mem_append_left _ h

theorem mem_unionStep_keys {k : String} {acc : List String} {p : PDict}
    (h : k ∈ keysOf p.specs) : k ∈ unionStep acc p := by
  by_cases ha : k ∈ acc
  · exact List.mem_append_left _ ha
  · refine List.mem_append_right _ (List.mem_filter.mpr ⟨h, ?_⟩)
    simp [List.contains, List.elem_eq_mem, ha]

theorem mem_foldl_unionStep_mono (k : String) :
    ∀ (ps : List PDict) (acc : List String), k ∈ acc →
      k ∈ ps.foldl unionStep acc
  | [], _, h => h
  | p :: rest, acc, h =>
      mem_foldl_unionStep_mono k rest (unionStep acc p) (mem_unionStep_left p h)

theorem mem_foldl_unionStep (k : String) :
    ∀ (ps : List PDict) (acc : List String) (p : PDict), p ∈ ps →
      k ∈ keysOf p.specs → k ∈ ps.foldl unionStep acc
  | [], _, p, hp, _ => absurd hp (List.not_mem_nil p)
  | q :: rest, acc, p, hp, hk => by
      rw [List.foldl_cons]
      rcases List.mem_cons.mp hp with rfl | hp'
      · exact mem_foldl_unionStep_mono k rest _ (mem_unionStep_keys hk)
      · exact mem_foldl_unionStep k rest _ p hp' hk

/-- Every spec key of every input product lands in the union. -/
theorem mem_unionSpecKeys {products : List PDict} {p : PDict}
    (hp : p ∈ products) {k : String} (hk : k ∈ keysOf p.specs) :
    k ∈ unionSpecKeys products :=
  mem_foldl_unionStep k products [] p hp hk

/-- Looking a key up in a product's specs row: any key of the union row
resolves to its `compareCell`; other keys are absent. -/
theorem lookupA_specRow (specs : List (String × SVal)) (k : String) :
    ∀ allKeys : List String,
      lookupA k (specRow allKeys specs) =
        if k ∈ allKeys then compareCell (lookupA k specs) else none
  | [] => by simp [specRow, lookupA]
  | k' :: rest => by
      by_cases hk : k' = k
      · subst hk
        rw [specRow, List.filterMap_cons]
        cases hc : compareCell (lookupA k' specs) with
        | none =>
            simp only [Option.map_none']
            rw [show List.filterMap _ rest = specRow rest specs from rfl,
              lookupA_specRow specs k' rest, hc]
            by_cases h2 : k' ∈ rest <;> simp [h2]
        | some w =>
            simp only [Option.map_some']
            rw [lookupA, if_pos rfl]
            simp [hc]
      · have hk' : ¬(k = k') := fun hh => hk hh.symm
        rw [specRow, List.filterMap_cons]
        cases hc : compareCell (lookupA k' specs) with
        | none =>
            simp only [Option.map_none']
            rw [show List.filterMap _ rest = specRow rest specs from rfl,
              lookupA_specRow specs k rest]
            simp [List.mem_cons, hk']
        | some w =>
            simp only [Option.map_some']
            rw [lookupA, if_neg hk,
              show List.filterMap _ rest = specRow rest specs from rfl,
              lookupA_specRow specs k rest]
            simp [List.mem_cons, hk']

/-- Every key of a specs row comes from the supplied key list. -/
theorem specRow_keys_subset (allKeys : List String)
    (specs : List (String × SVal)) :
    ∀ kv ∈ specRow allKeys specs, kv.1 ∈ allKeys := by
  intro kv hkv
  unfold specRow at hkv
  rw [List.mem_filterMap] at hkv
  obtain ⟨k, hk, hsome⟩ := hkv
  obtain ⟨w, _, hw⟩ := Option.map_eq_some'.mp hsome
  rw [← hw]
  exact hk

/-! ## Claim theorems -/

/-- C1 counterexample: with `budget_max = 500`, the candidate `cp1`
(no qualifying new-condition offers, no fallback `price_range`) is
dropped by the second budget skip (`search.py` line 69), so the search
result is empty — the claim says it must be retained. -/
theorem c1_counterexample :
    processProduct cdb1 (some 500) cp1 = none ∧
      searchProducts cdb1 (some 500) "rating" 20 [cp1] = [] :=
  ⟨rfl, rfl⟩

/-- C1 (amended): whenever `budget_max` is set (truthy) and a candidate
has no qualifying new-condition offers and no fallback `price_range`,
the candidate is excluded from the search results: its `in_budget` flag
can never become true, so the `search.py` line 69 skip fires. -/
theorem c1_unknown_price_excluded (db : DB) (b : Option Int) (p : Product)
    (hb : bTruthy b = true) (hoff : qualifyingOffers db p = [])
    (hpr : p.priceRange = none) :
    processProduct db b p = none := by
  unfold processProduct
  simp [hoff, hpr, hb, offersMin, offersInBudget, inBudgetState]

/-- Witness for the C1 amended theorem at the concrete instance. -/
theorem c1_unknown_price_excluded_witness :
    bTruthy (some 500) = true ∧ qualifyingOffers cdb1 cp1 = [] ∧
      cp1.priceRange = none ∧ processProduct cdb1 (some 500) cp1 = none :=
  ⟨rfl, rfl, rfl, c1_unknown_price_excluded cdb1 (some 500) cp1 rfl rfl rfl⟩

/-- C4 counterexample: `find(...).to_list(10)` fetches only the first
10 new-condition offers, so with eleven offers (ten at 200, the
cheapest at 100 stored last) the computed range is `(200, 200)` while
the minimum over *all* new-condition offers of all variants — what the
claim states — is `100`. -/
theorem c4_counterexample :
    finalPriceRange cdb4 cp4 = (200, 200) ∧
      offersMin (allNewOffers cdb4 cp4) = some 100 :=
  ⟨rfl, rfl⟩

/-- C4 (amended): over the offers the route actually fetches (the first
10 variants, 10 new-condition offers each), the aggregated range's min
and max are the least and greatest fetched price (prices are
nonnegative); with no fetched offer the range falls back to the
precomputed `price_range`, else `(0, 0)`; and for a nonzero supplied
`budget_max`, `in_budget` holds iff some fetched offer's price is within
budget (or, in the fallback case, iff the fallback minimum is). -/
theorem c4_price_aggregation (db : DB) (p : Product) (b : Option Int)
    (hpos : ∀ o ∈ db.offers, 0 ≤ o.price) (hb : bTruthy b = true) :
    (qualifyingOffers db p ≠ [] →
        isMinOfQualifying db p (finalPriceRange db p).1 ∧
          isMaxOfQualifying db p (finalPriceRange db p).2) ∧
      (qualifyingOffers db p = [] →
        finalPriceRange db p = p.priceRange.getD (0, 0)) ∧
      (inBudgetState db b p = true ↔ claimedInBudgetC4 db p b) := by
  have hsub : ∀ o ∈ qualifyingOffers db p, 0 ≤ o.price := by
    intro o ho
    apply hpos
    unfold qualifyingOffers at ho
    rw [List.mem_flatMap] at ho
    obtain ⟨v, _, ho⟩ := ho
    exact List.mem_of_mem_filter (List.mem_of_mem_take ho)
  refine ⟨?_, ?_, ?_⟩
  · intro hne
    obtain ⟨m, hm⟩ : ∃ m, offersMin (qualifyingOffers db p) = some m := by
      cases h : offersMin (qualifyingOffers db p) with
      | none => exact absurd ((offersMin_eq_none _).mp h) hne
      | some m => exact ⟨m, rfl⟩
    have hfr : finalPriceRange db p = (m, offersMax (qualifyingOffers db p)) := by
      rcases hpr : p.priceRange with _ | fb <;>
        simp [finalPriceRange, priceState, hm, hpr]
    rw [hfr]
    obtain ⟨hmem, hle⟩ := offersMin_spec _ m hm
    obtain ⟨hMmem, hMle⟩ := offersMax_spec _ hne hsub
    exact ⟨⟨hmem, hle⟩, ⟨hMmem, hMle⟩⟩
  · intro hQ
    have hm : offersMin (qualifyingOffers db p) = none := by
      rw [hQ]; rfl
    rcases hpr : p.priceRange with _ | fb <;>
      simp [finalPriceRange, priceState, hm, hpr]
  · unfold claimedInBudgetC4
    cases hmin : offersMin (qualifyingOffers db p) with
    | none =>
        have hQ : qualifyingOffers db p = [] := (offersMin_eq_none _).mp hmin
        rcases hpr : p.priceRange with _ | fb
        · simp [inBudgetState, hmin, hpr, hQ, offersInBudget, offersMin]
        · simp [inBudgetState, hmin, hpr, hQ, hb, offersMin]
    | some m =>
        have hQne : qualifyingOffers db p ≠ [] := by
          intro h
          rw [h] at hmin
          cases hmin
        have hib : inBudgetState db b p =
            offersInBudget b (qualifyingOffers db p) := by
          rcases hpr : p.priceRange with _ | fb <;>
            simp [inBudgetState, hmin, hpr]
        rw [hib, offersInBudget_iff b _ hb]
        constructor
        · exact Or.inl
        · rintro (h | ⟨hQ, _⟩)
          · exact h
          · exact absurd hQ hQne

/-- Witness for the C4 amended theorem at the eleven-offer instance with
`budget_max = 250`. -/
theorem c4_price_aggregation_witness :
    (∀ o ∈ cdb4.offers, 0 ≤ o.price) ∧ bTruthy (some 250) = true ∧
      ((qualifyingOffers cdb4 cp4 ≠ [] →
          isMinOfQualifying cdb4 cp4 (finalPriceRange cdb4 cp4).1 ∧
            isMaxOfQualifying cdb4 cp4 (finalPriceRange cdb4 cp4).2) ∧
        (qualifyingOffers cdb4 cp4 = [] →
          finalPriceRange cdb4 cp4 = cp4.priceRange.getD (0, 0)) ∧
        (inBudgetState cdb4 (some 250) cp4 = true ↔
          claimedInBudgetC4 cdb4 cp4 (some 250))) :=
  ⟨by decide, rfl, c4_price_aggregation cdb4 cp4 (some 250) (by decide) rfl⟩

/-- C5 counterexample: a product whose `popularity_rank` is present but
`0` scores `0` in the code (`product.get("popularity_rank")` is falsy),
while the claimed formula contributes `max(0, 100 - 0) = 100`. -/
theorem c5_counterexample :
    rawScore none none none (some 0) = 0 ∧
      claimedScoreC5 none none none (some 0) = 100 := by
  constructor
  · simp [rawScore, numTruthy, bTruthy]
  · show (0 : ℚ) + 0 + max 0 ((100 : ℚ) - ((0 : Int) : ℚ)) = 100
    norm_num

/-- C5 (amended): the computed score is exactly the sum of the three
optional terms — `rating * 10` when a rating is present (a present `0`
rating is skipped by truthiness but contributes `0` either way), the
budget-headroom price term, and `max(0, 100 - rank)` for a nonzero
present rank — each absent term contributing exactly `0`; in particular
a product with no rating, no rank and no budget scores exactly `0`. -/
theorem c5_score_formula (b : Option Int) (rating : Option ℚ)
    (pmin : Option ℚ) (rank : Option Int) :
    rawScore b rating pmin rank = claimedScoreC5Amended b rating pmin rank := by
  unfold rawScore claimedScoreC5Amended
  congr 1
  · congr 1
    · cases rating with
      | none => simp [numTruthy]
      | some r => by_cases hr : r = 0 <;> simp [numTruthy, hr]
    · cases b with
      | none => simp [bTruthy]
      | some bv =>
          cases pmin with
          | none => simp [bTruthy]
          | some m =>
              by_cases hbv : bv = 0
              · subst hbv; simp [bTruthy, bVal]
              · simp [bTruthy, bVal, hbv]
  · cases rank with
    | none => simp [numTruthy]
    | some r => by_cases hr : r = 0 <;> simp [numTruthy, hr]

theorem sortResults_price (l : List SearchResultItem) :
    sortResults "price" l =
      pySort (fun a b => decide (priceKey a ≤ priceKey b)) l := rfl

theorem sortResults_popularity (l : List SearchResultItem) :
    sortResults "popularity" l =
      pySort (fun a b => decide (popKey a ≤ popKey b)) l := rfl

theorem sortResults_rating (l : List SearchResultItem) :
    sortResults "rating" l =
      pySort (fun a b => decide (b.score ≤ a.score)) l := rfl

/-- C6 counterexample: under the popularity sort, `x.popularity_rank or
999` sends a *present* rank of `0` to the sentinel as well, so an item
of rank 0 sorts after an item of rank 5 — not ascending by the claimed
key (rank with only missing ranks as 999). -/
theorem c6_counterexample :
    sortResults "popularity" [c6item (some 5), c6item (some 0)]
        = [c6item (some 5), c6item (some 0)] ∧
      claimedPopKeyC6 (c6item (some 0)) < claimedPopKeyC6 (c6item (some 5)) :=
  ⟨rfl, by decide⟩

/-- C6 (amended): each selected sort criterion yields a permutation of
the pre-sort list, ordered by its key — score descending by default,
price-range minimum ascending, popularity rank ascending with missing
*or zero* ranks sent to the sentinel 999 — and each sort is stable: the
items sharing any key value appear in their pre-sort relative order. -/
theorem c6_sort_sorted_stable (results : List SearchResultItem) :
    ((sortResults "price" results).Perm results ∧
      (sortResults "price" results).Pairwise (fun a b => priceKey a ≤ priceKey b) ∧
      ∀ v : ℤ, (sortResults "price" results).filter (fun x => decide (priceKey x = v))
          = results.filter (fun x => decide (priceKey x = v))) ∧
    ((sortResults "popularity" results).Perm results ∧
      (sortResults "popularity" results).Pairwise (fun a b => popKey a ≤ popKey b) ∧
      ∀ v : ℤ, (sortResults "popularity" results).filter (fun x => decide (popKey x = v))
          = results.filter (fun x => decide (popKey x = v))) ∧
    ((sortResults "rating" results).Perm results ∧
      (sortResults "rating" results).Pairwise (fun a b => b.score ≤ a.score) ∧
      ∀ v : ℚ, (sortResults "rating" results).filter (fun x => decide (x.score = v))
          = results.filter (fun x => decide (x.score = v))) := by
  refine ⟨⟨?_, ?_, ?_⟩, ⟨?_, ?_, ?_⟩, ⟨?_, ?_, ?_⟩⟩
  · rw [sortResults_price]
    exact pySort_perm _ results
  · rw [sortResults_price]
    refine (sorted_pySort _ ?_ ?_ results).imp (fun h => of_decide_eq_true h)
    · intro a b
      rcases le_total (priceKey a) (priceKey b) with h | h
      · exact Or.inl (decide_eq_true h)
      · exact Or.inr (decide_eq_true h)
    · intro a b c hab hbc
      exact decide_eq_true (le_trans (of_decide_eq_true hab) (of_decide_eq_true hbc))
  · intro v
    rw [sortResults_price]
    apply filter_pySort
    intro a b ha hb
    rw [decide_eq_true_eq] at ha hb
    rw [ha, hb]
    exact decide_eq_true (le_refl v)
  · rw [sortResults_popularity]
    exact pySort_perm _ results
  · rw [sortResults_popularity]
    refine (sorted_pySort _ ?_ ?_ results).imp (fun h => of_decide_eq_true h)
    · intro a b
      rcases le_total (popKey a) (popKey b) with h | h
      · exact Or.inl (decide_eq_true h)
      · exact Or.inr (decide_eq_true h)
    · intro a b c hab hbc
      exact decide_eq_true (le_trans (of_decide_eq_true hab) (of_decide_eq_true hbc))
  · intro v
    rw [sortResults_popularity]
    apply filter_pySort
    intro a b ha hb
    rw [decide_eq_true_eq] at ha hb
    rw [ha, hb]
    exact decide_eq_true (le_refl v)
  · rw [sortResults_rating]
    exact pySort_perm _ results
  · rw [sortResults_rating]
    refine (sorted_pySort _ ?_ ?_ results).imp (fun h => of_decide_eq_true h)
    · intro a b
      rcases le_total b.score a.score with h | h
      · exact Or.inl (decide_eq_true h)
      · exact Or.inr (decide_eq_true h)
    · intro a b c hab hbc
      exact decide_eq_true (le_trans (of_decide_eq_true hbc) (of_decide_eq_true hab))
  · intro v
    rw [sortResults_rating]
    apply filter_pySort
    intro a b ha hb
    rw [decide_eq_true_eq] at ha hb
    rw [ha, hb]
    exact decide_eq_true (le_refl v)

/-- C7 counterexample: two inputs of at most 4 products on which no
five-sub-table matrix exists — the empty list returns the bare `{}`
(`compare.py` lines 146-147), and a single product whose `price_range`
is `None` raises (`price_range.get` on `None`, lines 175-177), because
the pydantic dict always carries the key, so `get`'s `{}` default never
applies. -/
theorem c7_counterexample :
    buildComparisonMatrix cdb7 [] = .emptyDict ∧
      buildComparisonMatrix cdb7 [cpd7none] = .typeError :=
  ⟨rfl, rfl⟩

/-- C7 (amended): for every *nonempty* list of at most 4 products, each
carrying a price range (a `None` range raises) and with distinct ids
(as the routes guarantee), the builder returns the five-sub-table
matrix; every product's id keys its own cell in each of the five
sub-tables; in the specs sub-table, every key of a product's row comes
from the union of all input products' spec keys, every spec key of
every product is in that union, and a product lacking a union key has
the em-dash sentinel at that key. -/
theorem c7_matrix_alignment (db : DB) (products : List PDict)
    (hne : products ≠ []) (hlen : products.length ≤ 4)
    (hpr : ∀ p ∈ products, p.priceRange.isSome = true)
    (hnd : (products.map PDict.productId).Nodup) :
    buildComparisonMatrix db products = .matrix (mkMatrix db products) ∧
      (∀ p ∈ products,
        lookupA p.productId (mkMatrix db products).basicInfo
            = some (basicCell p) ∧
          lookupA p.productId (mkMatrix db products).pricing
            = some (pricingCell db p) ∧
          lookupA p.productId (mkMatrix db products).specs
            = some (specRow (unionSpecKeys products) p.specs) ∧
          lookupA p.productId (mkMatrix db products).ratings
            = some (ratingsCell db p) ∧
          lookupA p.productId (mkMatrix db products).availability
            = some (availCell db p)) ∧
      (∀ p ∈ products, ∀ kv ∈ specRow (unionSpecKeys products) p.specs,
        kv.1 ∈ unionSpecKeys products) ∧
      (∀ p ∈ products, ∀ k ∈ keysOf p.specs, k ∈ unionSpecKeys products) ∧
      (∀ p ∈ products, ∀ k ∈ unionSpecKeys products,
        lookupA k p.specs = none →
          lookupA k (specRow (unionSpecKeys products) p.specs) = some emDash) := by
  refine ⟨?_, ?_, ?_, ?_, ?_⟩
  · have hempty : products.isEmpty = false := by
      cases products with
      | nil => exact absurd rfl hne
      | cons _ _ => rfl
    have hany : products.any (fun p => p.priceRange.isNone) = false := by
      rw [List.any_eq_false]
      intro p hp
      have hs := hpr p hp
      rw [Bool.not_eq_true, Option.isNone_eq_false_iff, Option.isSome_iff_exists]
      exact Option.isSome_iff_exists.mp hs
    unfold buildComparisonMatrix
    rw [hempty, hany]
    rfl
  · intro p hp
    exact ⟨lookupA_writeAll_mem basicCell products [] p hp hnd,
      lookupA_writeAll_mem (pricingCell db) products [] p hp hnd,
      lookupA_writeAll_mem (fun p => specRow (unionSpecKeys products) p.specs)
        products [] p hp hnd,
      lookupA_writeAll_mem (ratingsCell db) products [] p hp hnd,
      lookupA_writeAll_mem (availCell db) products [] p hp hnd⟩
  · intro p _ kv hkv
    exact specRow_keys_subset (unionSpecKeys products) p.specs kv hkv
  · intro p hp k hk
    exact mem_unionSpecKeys hp hk
  · intro p _ k hk hnone
    rw [lookupA_specRow p.specs k (unionSpecKeys products), if_pos hk, hnone]
    rfl

/-- Witness for the C7 amended theorem at the two-product instance. -/
theorem c7_matrix_alignment_witness :
    ([cpd7a, cpd7b] ≠ ([] : List PDict)) ∧ [cpd7a, cpd7b].length ≤ 4 ∧
      (∀ p ∈ [cpd7a, cpd7b], p.priceRange.isSome = true) ∧
      ([cpd7a, cpd7b].map PDict.productId).Nodup ∧
      (buildComparisonMatrix cdb7 [cpd7a, cpd7b]
          = .matrix (mkMatrix cdb7 [cpd7a, cpd7b]) ∧
        (∀ p ∈ [cpd7a, cpd7b],
          lookupA p.productId (mkMatrix cdb7 [cpd7a, cpd7b]).basicInfo
              = some (basicCell p) ∧
            lookupA p.productId (mkMatrix cdb7 [cpd7a, cpd7b]).pricing
              = some (pricingCell cdb7 p) ∧
            lookupA p.productId (mkMatrix cdb7 [cpd7a, cpd7b]).specs
              = some (specRow (unionSpecKeys [cpd7a, cpd7b]) p.specs) ∧
            lookupA p.productId (mkMatrix cdb7 [cpd7a, cpd7b]).ratings
              = some (ratingsCell cdb7 p) ∧
            lookupA p.productId (mkMatrix cdb7 [cpd7a, cpd7b]).availability
              = some (availCell cdb7 p)) ∧
        (∀ p ∈ [cpd7a, cpd7b],
          ∀ kv ∈ specRow (unionSpecKeys [cpd7a, cpd7b]) p.specs,
            kv.1 ∈ unionSpecKeys [cpd7a, cpd7b]) ∧
        (∀ p ∈ [cpd7a, cpd7b], ∀ k ∈ keysOf p.specs,
          k ∈ unionSpecKeys [cpd7a, cpd7b]) ∧
        (∀ p ∈ [cpd7a, cpd7b], ∀ k ∈ unionSpecKeys [cpd7a, cpd7b],
          lookupA k p.specs = none →
            lookupA k (specRow (unionSpecKeys [cpd7a, cpd7b]) p.specs)
              = some emDash)) := by
  refine ⟨?_, by decide, ?_, by decide, ?_⟩
  · intro h
    cases h
  · intro p hp
    rcases List.mem_cons.mp hp with rfl | hp'
    · rfl
    · rcases List.mem_cons.mp hp' with rfl | hp''
      · rfl
      · exact absurd hp'' (List.not_mem_nil p)
  · refine c7_matrix_alignment cdb7 [cpd7a, cpd7b] (fun h => by cases h)
      (by decide) ?_ (by decide)
    intro p hp
    rcases List.mem_cons.mp hp with rfl | hp'
    · rfl
    · rcases List.mem_cons.mp hp' with rfl | hp''
      · rfl
      · exact absurd hp'' (List.not_mem_nil p)

/-- C8: a direct comparison request naming more than 4 products is
rejected with the `InvalidInput` client error (HTTP 400) before any
product is fetched — nothing is truncated. -/
theorem c8_more_than_four_rejected (db : DB) (ids : List String)
    (h : 4 < ids.length) :
    compareProducts db ids = .error .invalidInput := by
  unfold compareProducts
  simp [h]

/-- Witness for C8 at a concrete 5-id request. -/
theorem c8_more_than_four_rejected_witness :
    4 < (["a", "b", "c", "d", "e"] : List String).length ∧
      compareProducts { products := [], variants := [], offers := [], reviews := [] }
        ["a", "b", "c", "d", "e"] = .error .invalidInput :=
  ⟨by decide,
    c8_more_than_four_rejected
      { products := [], variants := [], offers := [], reviews := [] }
      ["a", "b", "c", "d", "e"] (by decide)⟩

/-- Rounding a rational that is an integer returns that integer. -/
theorem pyRoundInt_intCast (z : ℤ) : pyRoundInt (z : ℚ) = z := by
  have hf : Rat.floor ((z : ℚ)) = z := by
    rw [Rat.floor_def']
    simp [Rat.num_intCast, Rat.den_intCast]
  unfold pyRoundInt
  rw [hf, sub_self]
  norm_num

theorem pyRoundN_zero (n : ℕ) : pyRoundN n 0 = 0 := by
  unfold pyRoundN
  rw [zero_mul, show ((0:ℚ)) = ((0:ℤ):ℚ) by norm_num, pyRoundInt_intCast]
  norm_num

theorem c9price_eq : c9price = 103/10 := by
  rw [c9price, Rat.mk'_eq_divInt, Rat.divInt_eq_div]
  norm_num

theorem pyRoundInt_c9price : pyRoundInt c9price = 10 := by
  have hf : Rat.floor c9price = 10 := by decide
  unfold pyRoundInt
  rw [hf, if_pos (by rw [c9price_eq]; push_cast; norm_num)]

theorem c9_process : processProduct cdb9 none cp9 = some c9item := by
  have hfr : finalPriceRange cdb9 cp9 = (c9price, c9price) := rfl
  have hps : (priceState cdb9 cp9).1 = some c9price := rfl
  have hraw : rawScore none cp9.rating (priceState cdb9 cp9).1
      cp9.popularityRank = 0 := by
    rw [hps]
    simp [rawScore, numTruthy, bTruthy, cp9]
  unfold processProduct
  rw [if_neg (by decide), if_neg (by decide)]
  refine congrArg some ?_
  unfold c9item
  simp only [SearchResultItem.mk.injEq]
  refine ⟨rfl, rfl, rfl, rfl, ?_, rfl, rfl, rfl, ?_, rfl⟩
  · rw [hfr]
    unfold validatePriceRange
    rw [pyRoundInt_c9price]
  · rw [hraw, pyRoundN_zero]

/-- C9 counterexample: the aggregated range of `cp9` is `(10.30, 10.30)`
but the emitted response range is `(10, 10)` — `PriceRange.round_price`
coerces with `int(round(float(v)))`, whole integers, not the claimed
2-decimal rounding (which would keep `10.30`). -/
theorem c9_counterexample :
    finalPriceRange cdb9 cp9 = (c9price, c9price) ∧ c9price = 103/10 ∧
      (processProduct cdb9 none cp9).map SearchResultItem.priceRange
        = some (some (10, 10)) ∧
      pyRoundN 2 (103/10 : ℚ) ≠ 10 := by
  refine ⟨rfl, c9price_eq, by rw [c9_process]; rfl, ?_⟩
  have hmul : (103/10 : ℚ) * 10 ^ 2 = ((1030 : ℤ) : ℚ) := by push_cast; norm_num
  unfold pyRoundN
  rw [hmul, pyRoundInt_intCast]
  push_cast
  norm_num

/-- C9 (amended): rounding happens exactly once, at the response
boundary — every emitted item's score is the 1-decimal rounding of the
exact score and its price range is the *integer* (not 2-decimal)
rounding of the exact aggregated range; the aggregation and scoring
themselves operate on unrounded values. -/
theorem c9_boundary_rounding (db : DB) (b : Option Int) (p : Product)
    (item : SearchResultItem) (h : processProduct db b p = some item) :
    item.score = pyRoundN 1
        (rawScore b p.rating (priceState db p).1 p.popularityRank) ∧
      item.priceRange = some (pyRoundInt (finalPriceRange db p).1,
        pyRoundInt (finalPriceRange db p).2) := by
  unfold processProduct at h
  by_cases h1 : (bTruthy b && !offersInBudget b (qualifyingOffers db p) &&
      (offersMin (qualifyingOffers db p)).isSome) = true
  · rw [if_pos h1] at h
    cases h
  · rw [if_neg h1] at h
    by_cases h2 : (bTruthy b && !inBudgetState db b p) = true
    · rw [if_pos h2] at h
      cases h
    · rw [if_neg h2] at h
      have hi := Option.some.inj h
      subst hi
      exact ⟨rfl, rfl⟩

/-- Witness for the C9 amended theorem at the `10.30` instance. -/
theorem c9_boundary_rounding_witness :
    processProduct cdb9 none cp9 = some c9item ∧
      (c9item.score = pyRoundN 1
          (rawScore none cp9.rating (priceState cdb9 cp9).1 cp9.popularityRank) ∧
        c9item.priceRange = some (pyRoundInt (finalPriceRange cdb9 cp9).1,
          pyRoundInt (finalPriceRange cdb9 cp9).2)) :=
  ⟨c9_process, c9_boundary_rounding cdb9 none cp9 c9item c9_process⟩

/-- C10: a search with `budget_max = 0` behaves exactly as a search with
no budget: no candidate is excluded for price, the price score term
contributes nothing, and every result's `in_budget` field is `null` —
the whole result list is identical. -/
theorem c10_zero_budget_behaves_as_absent (db : DB) (sort : String)
    (limit : ℕ) (candidates : List Product) :
    searchProducts db (some 0) sort limit candidates =
      searchProducts db none sort limit candidates := by
  unfold searchProducts
  rw [List.filterMap_congr (fun p _ => processProduct_budget_zero db p)]

/-- C2 counterexample: a spec key whose value is a free-form object with
no truthy non-metadata entry is *omitted* from the search spec summary
(`search.py` lines 83-88 have no else-branch), not mapped to a
sentinel: the input has key `"x"`, the output is empty. -/
theorem c2_counterexample :
    specSummaryFields [("x", .obj [("confidence", .num 1)])] = [] ∧
      keysOf [("x", (SVal.obj [("confidence", .num 1)]))] = ["x"] :=
  ⟨rfl, rfl⟩

theorem specSummaryFields_cons_none {k' : String} {v : SVal}
    {rest : List (String × SVal)} (h : summaryEntry v = none) :
    specSummaryFields ((k', v) :: rest) = specSummaryFields rest := by
  simp [specSummaryFields, List.filterMap_cons, h]

theorem specSummaryFields_cons_some {k' : String} {v w : SVal}
    {rest : List (String × SVal)} (h : summaryEntry v = some w) :
    specSummaryFields ((k', v) :: rest) = (k', w) :: specSummaryFields rest := by
  simp [specSummaryFields, List.filterMap_cons, h]

/-- C2 (amended): normalization is total (the embedding is a total
function over arbitrary spec mappings) and its output keys are exactly
the input keys that yield an extractable value — a key with no
extractable value is omitted, not mapped to a sentinel, so the output
key set is a subset of the input's. -/
theorem c2_normalize_total_keys (fields : List (String × SVal)) (k : String) :
    (k ∈ keysOf (specSummaryFields fields) → k ∈ keysOf fields) ∧
      (k ∈ keysOf (specSummaryFields fields) ↔
        ∃ v, (k, v) ∈ fields ∧ summaryExtractable v = true) := by
  have hiff : k ∈ keysOf (specSummaryFields fields) ↔
      ∃ v, (k, v) ∈ fields ∧ summaryExtractable v = true := by
    induction fields with
    | nil => simp [specSummaryFields, keysOf]
    | cons kv rest ih =>
        obtain ⟨k', v⟩ := kv
        simp only [keysOf] at ih ⊢
        cases h : summaryEntry v with
        | none =>
            rw [specSummaryFields_cons_none h, ih]
            constructor
            · rintro ⟨w, hw, hex⟩
              exact ⟨w, List.mem_cons_of_mem _ hw, hex⟩
            · rintro ⟨w, hw, hex⟩
              rcases List.mem_cons.mp hw with heq | hw'
              · cases heq
                rw [summaryExtractable, h] at hex
                cases hex
              · exact ⟨w, hw', hex⟩
        | some w =>
            rw [specSummaryFields_cons_some h]
            simp only [List.map_cons, List.mem_cons]
            rw [ih]
            constructor
            · rintro (rfl | ⟨u, hu, hex⟩)
              · exact ⟨v, Or.inl rfl, by rw [summaryExtractable, h]; rfl⟩
              · exact ⟨u, Or.inr hu, hex⟩
            · rintro ⟨u, heq | hu', hex⟩
              · cases heq
                exact Or.inl rfl
              · exact Or.inr ⟨u, hu', hex⟩
  refine ⟨fun h => ?_, hiff⟩
  obtain ⟨v, hv, _⟩ := hiff.mp h
  exact List.mem_map.mpr ⟨(k, v), hv, rfl⟩

/-- Witness for the C2 amended theorem at a concrete mapping (the `∃`
direction instantiated at a mapping holding one extractable and one
unextractable key). -/
theorem c2_normalize_total_keys_witness :
    ("ram" ∈ keysOf (specSummaryFields
        [("ram", .num 8), ("x", .obj [("confidence", .num 1)])]) →
      "ram" ∈ keysOf [("ram", SVal.num 8), ("x", SVal.obj [("confidence", SVal.num 1)])]) ∧
      ("ram" ∈ keysOf (specSummaryFields
          [("ram", .num 8), ("x", .obj [("confidence", .num 1)])]) ↔
        ∃ v, ("ram", v) ∈ [("ram", SVal.num 8), ("x", SVal.obj [("confidence", SVal.num 1)])] ∧
          summaryExtractable v = true) :=
  c2_normalize_total_keys
    [("ram", .num 8), ("x", .obj [("confidence", .num 1)])] "ram"

/-- C3 counterexample: on `{ram: {unit: "GB", size: 8}}` the search
summary extracts `"GB"` (its metadata set lacks `unit`), while the
claimed priority (metadata set `{confidence, sources, unit}`) extracts
`8` — so the claimed rules do not hold for the search normalizer. -/
theorem c3_counterexample :
    specSummaryFields [("ram", .obj [("unit", .str "GB"), ("size", .num 8)])]
        = [("ram", .str "GB")] ∧
      claimedNormalizeC3 [("ram", .obj [("unit", .str "GB"), ("size", .num 8)])]
        = [("ram", .num 8)] :=
  ⟨rfl, rfl⟩

/-- C3 (amended): the claimed priority of extraction rules holds exactly
as stated (metadata set `{confidence, sources, unit}`) for the response
model's `extract_spec_values`; the search summary follows the same
priority but with metadata set `{confidence, sources}` and drops falsy
non-mapping values instead of keeping them as-is. -/
theorem c3_priority_rules (fields : List (String × SVal)) :
    extractSpecFields fields = claimedNormalizeC3 fields ∧
      specSummaryFields fields = claimedSearchNormalizeC3 fields := by
  constructor
  · unfold extractSpecFields claimedNormalizeC3
    apply List.filterMap_congr
    intro kv _
    obtain ⟨k, v⟩ := kv
    cases v <;> rfl
  · unfold specSummaryFields claimedSearchNormalizeC3
    apply List.filterMap_congr
    intro kv _
    obtain ⟨k, v⟩ := kv
    cases v with
    | obj f => rfl
    | str s => by_cases h : truthy (.str s) <;> simp [summaryEntry, h]
    | num n => by_cases h : truthy (.num n) <;> simp [summaryEntry, h]
    | bool b => by_cases h : truthy (.bool b) <;> simp [summaryEntry, h]
    | null => by_cases h : truthy .null <;> simp [summaryEntry, h]
    | list l => by_cases h : truthy (.list l) <;> simp [summaryEntry, h]
